import Mathlib

/-!
Shallow embedding of the digital-cash state machine
(`src/c1_state_machine/p5_digital_cash.rs`) and of the extrinsic/state
blockchain headers (`src/c2_blockchain/p2_extrinsic_state.rs`) from the
`blockchain-from-scratch` repository, together with theorems settling the
specification claims about them.

Machine integers (`u64`) are modelled as `Nat` with explicit reduction
modulo `2 ^ 64` at every arithmetic site of the source (the semantics of a
release build, where overflow wraps).  A second, overflow-checked model
(`nextStateChecked`, returning `Option`) mirrors a debug build, where an
overflowing `+=` panics; `none` stands for that panic.

Rust's `HashSet<Account>` has an unspecified iteration order; the embedding
represents the set as a `List Account` whose order plays the role of the
iteration order, and whose insert operation is a no-op on an element already
present, exactly like `HashSet::insert`.  The `HashMap<User, u64>` built from
the spends is modelled as an association list updated in place, preserving
first-occurrence order.
-/

namespace BFScratch

/-- The u64 modulus. -/
def U64 : Nat := 2 ^ 64

/-- The play users from `c1_state_machine/mod.rs`. -/
inductive User
  | Alice
  | Bob
  | Charlie
deriving DecidableEq, Repr

/-- A single bill: owner, amount and serial number (struct `Account`). -/
structure Account where
  owner : User
  amount : Nat
  serial : Nat
deriving DecidableEq, Repr

/-- The state of the digital cash system: the circulating bills (the
`HashSet`, represented as a list in iteration order) and the next serial
number. -/
structure Bank where
  bills : List Account
  next_serial : Nat
deriving DecidableEq, Repr

/-- `Bank::new()`: empty bill set, serial counter 0. -/
def Bank.new : Bank := { bills := [], next_serial := 0 }

/-- `HashSet::insert`: adds the element only when it is not already present
(the position chosen for a new element is the end of the iteration order). -/
def insertBill (l : List Account) (a : Account) : List Account :=
  if a ∈ l then l else l ++ [a]

/-- `HashSet::remove`: drops the (unique) occurrence of the element. -/
def removeBill : List Account → Account → List Account
  | [], _ => []
  | b :: rest, a => if b = a then rest else b :: removeBill rest a

/-- `Bank::increment_serial`: `next_serial += 1` (wrapping u64 add). -/
def increment_serial (s : Bank) : Bank :=
  { s with next_serial := (s.next_serial + 1) % U64 }

/-- `Bank::add_bill`: insert the bill, then increment the serial counter. -/
def add_bill (s : Bank) (a : Account) : Bank :=
  increment_serial { s with bills := insertBill s.bills a }

/-- The transitions of the digital cash system (enum `CashTransaction`). -/
inductive CashTransaction
  | Mint (minter : User) (amount : Nat)
  | Transfer (spends : List Account) (receives : List Account)

/-- Wrapping u64 addition. -/
def wrapAdd (x y : Nat) : Nat := (x + y) % U64

/-- The `spends_sum` / `receives_sum` accumulation loops (wrapping adds). -/
def sumAmounts (l : List Account) : Nat :=
  l.foldl (fun acc a => wrapAdd acc a.amount) 0

/-- The per-receive guard `i.amount == u64::MAX || i.amount == 0`. -/
def badReceive (a : Account) : Bool :=
  a.amount == U64 - 1 || a.amount == 0

/-- One `get`/`insert` round on `user_spends_dict`: add `amt` (wrapping) to
the existing entry of `u`, or append a fresh entry. -/
def dictUpdate : List (User × Nat) → User → Nat → List (User × Nat)
  | [], u, amt => [(u, amt)]
  | (w, x) :: rest, u, amt =>
    if w = u then (w, wrapAdd amt x) :: rest
    else (w, x) :: dictUpdate rest u amt

/-- The loop building `user_spends_dict` from the spends list. -/
def buildSpendsDict (spends : List Account) : List (User × Nat) :=
  spends.foldl (fun d a => dictUpdate d a.owner a.amount) []

/-- The inner scan over `starting_state.bills` looking for the first bill of
`u` whose amount covers the user's total spend. -/
def findSpendBill (bills : List Account) (u : User) (total : Nat) : Option Account :=
  bills.find? fun acc => u == acc.owner && decide (total ≤ acc.amount)

/-- The loop over `user_spends_dict`: for each user, find a covering bill in
the starting bills, remove it and re-insert the remainder (when nonzero);
`none` models the `enough_money_for_user == false` early return. -/
def processSpends (startBills : List Account) : List (User × Nat) → Bank → Option Bank
  | [], bank => some bank
  | (u, total) :: rest, bank =>
    match findSpendBill startBills u total with
    | none => none
    | some acc =>
      let newAmt := acc.amount - total
      let removed := removeBill bank.bills acc
      let bills1 :=
        if newAmt = 0 then removed
        else insertBill removed { owner := acc.owner, amount := newAmt, serial := acc.serial }
      processSpends startBills rest { bank with bills := bills1 }

/-- The inner loop of the receives phase: for one receive `i`, scan the
starting bills and, for every bill owned by the receiver, insert a copy with
the received amount added (wrapping) and the ORIGINAL serial kept. -/
def receiveInto (startBills : List Account) (i : Account) (bills : List Account) : List Account :=
  startBills.foldl
    (fun bl acc =>
      if i.owner = acc.owner then
        insertBill bl { owner := acc.owner, amount := wrapAdd acc.amount i.amount, serial := acc.serial }
      else bl)
    bills

/-- The outer receives loop of the Transfer branch. -/
def processReceives (startBills : List Account) : List Account → Bank → Bank
  | [], bank => bank
  | i :: rest, bank =>
    processReceives startBills rest { bank with bills := receiveInto startBills i bank.bills }

/-- `DigitalCashSystem::next_state`, release (wrapping) semantics.  The
branch structure mirrors the source: Mint adds a bill with the current
`next_serial` and increments the counter; Transfer runs the sum loops, the
receive guard, the conservation comparison, the per-user spends processing
and the receives processing, returning the starting state on any rejection. -/
def next_state (s : Bank) (t : CashTransaction) : Bank :=
  match t with
  | CashTransaction.Mint minter amount =>
    add_bill s { owner := minter, amount := amount, serial := s.next_serial }
  | CashTransaction.Transfer spends receives =>
    if receives.any badReceive then s
    else if sumAmounts spends < sumAmounts receives then s
    else
      match processSpends s.bills (buildSpendsDict spends) s with
      | none => s
      | some bank => processReceives s.bills receives bank

/-- Fold a list of transactions from `Bank::new()` (the reachable states). -/
def applyAll (ts : List CashTransaction) : Bank :=
  ts.foldl next_state Bank.new

/-- Checked u64 addition: `none` models the overflow panic of a debug
build. -/
def checkedAdd (x y : Nat) : Option Nat :=
  if x + y < U64 then some (x + y) else none

/-- The `spends_sum` loop under overflow-checked arithmetic. -/
def sumAmountsChecked : List Account → Nat → Option Nat
  | [], acc => some acc
  | a :: rest, acc =>
    match checkedAdd acc a.amount with
    | none => none
    | some acc2 => sumAmountsChecked rest acc2

/-- Outcome of the receives scan under checked arithmetic: an overflow
panic, an early return on a bad amount, or the accumulated sum. -/
inductive ReceiveScan
  | overflow
  | badAmount
  | ok (sum : Nat)
deriving DecidableEq

/-- The receives loop (guard then checked add, in list order). -/
def scanReceives : List Account → Nat → ReceiveScan
  | [], acc => ReceiveScan.ok acc
  | i :: rest, acc =>
    if i.amount = U64 - 1 ∨ i.amount = 0 then ReceiveScan.badAmount
    else
      match checkedAdd acc i.amount with
      | none => ReceiveScan.overflow
      | some acc2 => scanReceives rest acc2

/-- `dictUpdate` under checked arithmetic. -/
def dictUpdateChecked : List (User × Nat) → User → Nat → Option (List (User × Nat))
  | [], u, amt => some [(u, amt)]
  | (w, x) :: rest, u, amt =>
    if w = u then (checkedAdd amt x).map fun v => (w, v) :: rest
    else (dictUpdateChecked rest u amt).map fun d => (w, x) :: d

/-- The dict-building loop under checked arithmetic. -/
def buildSpendsDictChecked : List Account → List (User × Nat) → Option (List (User × Nat))
  | [], d => some d
  | a :: rest, d =>
    match dictUpdateChecked d a.owner a.amount with
    | none => none
    | some d2 => buildSpendsDictChecked rest d2

/-- `receiveInto` under checked arithmetic (`amount += received` can
panic). -/
def receiveIntoChecked : List Account → Account → List Account → Option (List Account)
  | [], _, bills => some bills
  | acc :: rest, i, bills =>
    if i.owner = acc.owner then
      match checkedAdd acc.amount i.amount with
      | none => none
      | some v =>
        receiveIntoChecked rest i (insertBill bills { owner := acc.owner, amount := v, serial := acc.serial })
    else receiveIntoChecked rest i bills

/-- The receives loop under checked arithmetic. -/
def processReceivesChecked (startBills : List Account) : List Account → Bank → Option Bank
  | [], bank => some bank
  | i :: rest, bank =>
    match receiveIntoChecked startBills i bank.bills with
    | none => none
    | some bl => processReceivesChecked startBills rest { bank with bills := bl }

/-- `DigitalCashSystem::next_state` under debug (overflow-checked)
semantics: `none` models a panic, `some` the returned state.  The phases run
in source order: spends sum, receives scan, conservation comparison, dict
build, spends processing, receives processing. -/
def nextStateChecked (s : Bank) (t : CashTransaction) : Option Bank :=
  match t with
  | CashTransaction.Mint minter amount =>
    (checkedAdd s.next_serial 1).map fun ns =>
      { bills := insertBill s.bills { owner := minter, amount := amount, serial := s.next_serial },
        next_serial := ns }
  | CashTransaction.Transfer spends receives =>
    match sumAmountsChecked spends 0 with
    | none => none
    | some spends_sum =>
      match scanReceives receives 0 with
      | ReceiveScan.overflow => none
      | ReceiveScan.badAmount => some s
      | ReceiveScan.ok receives_sum =>
        if spends_sum < receives_sum then some s
        else
          match buildSpendsDictChecked spends [] with
          | none => none
          | some dict =>
            match processSpends s.bills dict s with
            | none => some s
            | some bank => processReceivesChecked s.bills receives bank

/-- Total face value of a list of bills (a specification-side measure). -/
def billsTotal (l : List Account) : Nat :=
  (l.map Account.amount).sum

/-! Headers of `c2_blockchain/p2_extrinsic_state.rs`.  The hash function is
the injected `crate::hash` (u64 output); it is a parameter of the
definitions, as its algorithm is not part of the contract. -/

/-- The header of the extrinsic/state chain.  The `consensus_digest` field
of the source is the unit value and is kept as such. -/
structure Header where
  parent : Nat
  height : Nat
  extrinsic : Nat
  state : Nat
  consensus_digest : Unit
deriving DecidableEq

/-- `Header::genesis()`. -/
def genesis : Header :=
  { parent := 0, height := 0, extrinsic := 0, state := 0, consensus_digest := () }

/-- `Header::child`: parent hash, height + 1, and state advanced by adding
the extrinsic (the adder chain), with wrapping u64 arithmetic. -/
def child (hashFn : Header → Nat) (h : Header) (extrinsic : Nat) : Header :=
  { parent := hashFn h
    height := (h.height + 1) % U64
    extrinsic := extrinsic
    state := (h.state + extrinsic) % U64
    consensus_digest := () }

/-- `Header::verify_sub_chain`: walk the chain, checking parent hash, height
increment and state relation against the running previous header, returning
false at the first violation. -/
def verify_sub_chain (hashFn : Header → Nat) : Header → List Header → Bool
  | _, [] => true
  | prev, h :: rest =>
    if h.parent ≠ hashFn prev then false
    else if h.height ≠ (prev.height + 1) % U64 then false
    else if h.state ≠ (prev.state + h.extrinsic) % U64 then false
    else verify_sub_chain hashFn h rest

/-- The specification's per-link condition between a predecessor `p` and a
child `c`: linked parent hash, incremented height, and committed state equal
to the predecessor state plus the child's extrinsic. -/
def linkOk (hashFn : Header → Nat) (p c : Header) : Prop :=
  c.parent = hashFn p ∧ c.height = (p.height + 1) % U64 ∧
    c.state = (p.state + c.extrinsic) % U64

/-! Concrete scenario inputs used by the claim theorems. -/

/-- A bank holding exactly the bill (Alice, 42, serial 0). -/
def aliceBank42 : Bank :=
  { bills := [{ owner := User.Alice, amount := 42, serial := 0 }], next_serial := 1 }

/-- The fan-out transfer of the specification scenario: spend Alice's 42,
receive 10 to each of Alice, Bob and Charlie with fresh serials 1, 2, 3. -/
def transferAliceToAll : CashTransaction :=
  CashTransaction.Transfer
    [{ owner := User.Alice, amount := 42, serial := 0 }]
    [{ owner := User.Alice, amount := 10, serial := 1 },
     { owner := User.Bob, amount := 10, serial := 2 },
     { owner := User.Charlie, amount := 10, serial := 3 }]

/-- A bank whose Alice owns two bills of 5 (serials 0 and 1). -/
def twoFivesBank : Bank :=
  { bills := [{ owner := User.Alice, amount := 5, serial := 0 },
              { owner := User.Alice, amount := 5, serial := 1 }],
    next_serial := 2 }

/-- A small self-transfer: Alice spends 1 and receives 1 with the fresh
serial 2. -/
def selfTransfer : CashTransaction :=
  CashTransaction.Transfer
    [{ owner := User.Alice, amount := 1, serial := 0 }]
    [{ owner := User.Alice, amount := 1, serial := 2 }]

/-- A bank holding exactly the bill (Alice, 20, serial 0). -/
def aliceBank20 : Bank :=
  { bills := [{ owner := User.Alice, amount := 20, serial := 0 }], next_serial := 1 }

/-- A transfer spending a bill (Alice, 5, serial 77) that exists nowhere. -/
def ghostSpendTransfer : CashTransaction :=
  CashTransaction.Transfer
    [{ owner := User.Alice, amount := 5, serial := 77 }]
    [{ owner := User.Bob, amount := 5, serial := 1 }]

/-- The serial-reuse transfer of test `sm_5_serial_number_already_seen_fails`:
spend (Alice, 20, 0) and receive (Alice, 18, 0), reusing serial 0. -/
def serialReuseTransfer : CashTransaction :=
  CashTransaction.Transfer
    [{ owner := User.Alice, amount := 20, serial := 0 }]
    [{ owner := User.Alice, amount := 18, serial := 0 }]

/-- A transaction history from `Bank::new()`: mint 5 to Alice twice, then a
small self-transfer spending 2 and receiving 2 at the fresh serial 2. -/
def dupSerialHistory : List CashTransaction :=
  [CashTransaction.Mint User.Alice 5,
   CashTransaction.Mint User.Alice 5,
   CashTransaction.Transfer
     [{ owner := User.Alice, amount := 2, serial := 9 }]
     [{ owner := User.Alice, amount := 2, serial := 2 }]]

/-- A transfer whose two spend amounts sum past the u64 ceiling. -/
def overflowTransfer : CashTransaction :=
  CashTransaction.Transfer
    [{ owner := User.Alice, amount := U64 - 1, serial := 0 },
     { owner := User.Alice, amount := U64 - 1, serial := 1 }]
    [{ owner := User.Bob, amount := 1, serial := 2 }]

/-- Two bills of Alice (5 at serial 0, 7 at serial 1), listed in one
iteration order. -/
def bankOrderA : Bank :=
  { bills := [{ owner := User.Alice, amount := 5, serial := 0 },
              { owner := User.Alice, amount := 7, serial := 1 }],
    next_serial := 2 }

/-- The same two bills in the opposite iteration order: equal to
`bankOrderA` as a `HashSet` value. -/
def bankOrderB : Bank :=
  { bills := [{ owner := User.Alice, amount := 7, serial := 1 },
              { owner := User.Alice, amount := 5, serial := 0 }],
    next_serial := 2 }

/-- A transfer spending 3 from Alice with no receives. -/
def drainTransfer : CashTransaction :=
  CashTransaction.Transfer [{ owner := User.Alice, amount := 3, serial := 0 }] []

end BFScratch

namespace BFScratch

/-- Membership in the `HashSet::insert` model: the result holds exactly the
old elements and the inserted one. -/
theorem mem_insertBill (l : List Account) (a b : Account) :
    b ∈ insertBill l a ↔ b ∈ l ∨ b = a := by
  unfold insertBill
  split
  · next h =>
    constructor
    · exact Or.inl
    · rintro (hb | rfl)
      · exact hb
      · exact h
  · next h => simp

/-- The spends-processing loop never touches the serial counter. -/
theorem processSpends_next_serial (startBills : List Account) :
    ∀ (d : List (User × Nat)) (bank bank2 : Bank),
      processSpends startBills d bank = some bank2 → bank2.next_serial = bank.next_serial := by
  intro d
  induction d with
  | nil =>
    intro bank bank2 h
    simp only [processSpends, Option.some.injEq] at h
    rw [← h]
  | cons p rest ih =>
    obtain ⟨u, total⟩ := p
    intro bank bank2 h
    simp only [processSpends] at h
    cases hf : findSpendBill startBills u total with
    | none =>
      simp only [hf] at h
      exact Option.noConfusion h
    | some acc =>
      simp only [hf] at h
      have h2 := ih _ _ h
      exact h2

/-- The receives-processing loop never touches the serial counter. -/
theorem processReceives_next_serial (startBills : List Account) :
    ∀ (rc : List Account) (bank : Bank),
      (processReceives startBills rc bank).next_serial = bank.next_serial := by
  intro rc
  induction rc with
  | nil => intro bank; rfl
  | cons i rest ih => intro bank; exact ih _

/-- C10: for every bank state and every Transfer (accepted or rejected), the
returned state carries the starting `next_serial` unchanged; only Mint moves
the counter. -/
theorem C10_transfer_preserves_next_serial (s : Bank) (spends receives : List Account) :
    (next_state s (CashTransaction.Transfer spends receives)).next_serial = s.next_serial := by
  simp only [next_state]
  split
  · rfl
  · split
    · rfl
    · split
      · rfl
      · next bank hps =>
        rw [processReceives_next_serial]
        exact processSpends_next_serial s.bills _ _ _ hps

/-- C6: Mint always succeeds, the resulting bill multiset is the starting
one plus the bill (minter, amount, old serial), and the counter advances by
one; concretely, minting 20 to Alice on the empty bank yields exactly that
single bill at serial 0 with the counter at 1. -/
theorem C6_mint_adds_bill :
    (∀ (s : Bank) (m : User) (a : Nat), s.next_serial + 1 < U64 →
      ((∀ b : Account, b ∈ (next_state s (CashTransaction.Mint m a)).bills ↔
          (b ∈ s.bills ∨ b = { owner := m, amount := a, serial := s.next_serial })) ∧
        (next_state s (CashTransaction.Mint m a)).next_serial = s.next_serial + 1)) ∧
    next_state Bank.new (CashTransaction.Mint User.Alice 20) =
      { bills := [{ owner := User.Alice, amount := 20, serial := 0 }], next_serial := 1 } := by
  constructor
  · intro s m a h
    constructor
    · intro b
      exact mem_insertBill s.bills _ b
    · exact Nat.mod_eq_of_lt h
  · decide

/-- Witness for C6 at the concrete scenario of the claim: the empty bank and
Mint of 20 to Alice. -/
theorem C6_mint_adds_bill_witness :
    Bank.new.next_serial + 1 < U64 ∧
    ((∀ b : Account, b ∈ (next_state Bank.new (CashTransaction.Mint User.Alice 20)).bills ↔
        (b ∈ Bank.new.bills ∨
          b = { owner := User.Alice, amount := 20, serial := Bank.new.next_serial })) ∧
      (next_state Bank.new (CashTransaction.Mint User.Alice 20)).next_serial =
        Bank.new.next_serial + 1) :=
  ⟨by decide, C6_mint_adds_bill.1 Bank.new User.Alice 20 (by decide)⟩

/-- C7: `verify_sub_chain` accepts exactly the chains every adjacent pair of
which (the first header paired with the start) satisfies the linkage
condition: parent hash, incremented height, and state advanced by the
child's extrinsic. -/
theorem C7_verify_sub_chain_iff_chain (hashFn : Header → Nat) (start : Header)
    (chain : List Header) :
    verify_sub_chain hashFn start chain = true ↔ List.Chain (linkOk hashFn) start chain := by
  induction chain generalizing start with
  | nil =>
    simp only [verify_sub_chain]
    exact ⟨fun _ => List.Chain.nil, fun _ => trivial⟩
  | cons c rest ih =>
    simp only [verify_sub_chain, List.chain_cons]
    by_cases h1 : c.parent = hashFn start
    · by_cases h2 : c.height = (start.height + 1) % U64
      · by_cases h3 : c.state = (start.state + c.extrinsic) % U64
        · simp [h1, h2, h3, linkOk, ih]
        · simp [h1, h2, h3, linkOk]
      · simp [h1, h2, linkOk]
    · simp [h1, linkOk]

/-- C1: the fan-out scenario diverges from the claim.  On the bank holding
exactly (Alice, 42, 0), the transfer spending it and receiving 10 each to
Alice, Bob and Charlie at serials 1, 2, 3 yields the single bill
(Alice, 52, 0) with the counter still at 1 — not the three receive bills
with the counter at 4. -/
theorem C1_transfer_scenario_code_bug :
    next_state aliceBank42 transferAliceToAll =
      { bills := [{ owner := User.Alice, amount := 52, serial := 0 }], next_serial := 1 } ∧
    (next_state aliceBank42 transferAliceToAll).next_serial ≠ 4 ∧
    ({ owner := User.Bob, amount := 10, serial := 2 } : Account) ∉
      (next_state aliceBank42 transferAliceToAll).bills := by
  decide

/-- C2: conservation fails.  Starting from two Alice bills of 5 (total 10),
the transfer spending 1 and receiving 1 back to Alice produces a bank whose
bills total 21. -/
theorem C2_conservation_code_bug :
    billsTotal twoFivesBank.bills = 10 ∧
    billsTotal (next_state twoFivesBank selfTransfer).bills = 21 ∧
    billsTotal twoFivesBank.bills <
      billsTotal (next_state twoFivesBank selfTransfer).bills := by
  decide

/-- C3: spending a bill absent from the bill set is not rejected.  The bill
(Alice, 5, 77) is not in the bank holding only (Alice, 20, 0), yet the
transfer spending it changes the state to the single bill (Alice, 15, 0). -/
theorem C3_nonexistent_spend_code_bug :
    ({ owner := User.Alice, amount := 5, serial := 77 } : Account) ∉ aliceBank20.bills ∧
    next_state aliceBank20 ghostSpendTransfer =
      { bills := [{ owner := User.Alice, amount := 15, serial := 0 }], next_serial := 1 } ∧
    next_state aliceBank20 ghostSpendTransfer ≠ aliceBank20 := by
  decide

/-- C4: the serial-uniqueness invariant fails on a reachable state.  After
two mints of 5 to Alice and a small self-transfer, the reached bill set
contains the two distinct bills (Alice, 3, 0) and (Alice, 7, 0), which share
serial 0. -/
theorem C4_serial_uniqueness_code_bug :
    applyAll dupSerialHistory =
      { bills := [{ owner := User.Alice, amount := 5, serial := 1 },
                  { owner := User.Alice, amount := 3, serial := 0 },
                  { owner := User.Alice, amount := 7, serial := 0 },
                  { owner := User.Alice, amount := 7, serial := 1 }],
        next_serial := 2 } ∧
    ({ owner := User.Alice, amount := 3, serial := 0 } : Account) ∈ (applyAll dupSerialHistory).bills ∧
    ({ owner := User.Alice, amount := 7, serial := 0 } : Account) ∈ (applyAll dupSerialHistory).bills ∧
    ({ owner := User.Alice, amount := 3, serial := 0 } : Account) ≠
      { owner := User.Alice, amount := 7, serial := 0 } := by
  decide

/-- C5: a receive reusing an existing serial is not rejected.  Spending
(Alice, 20, 0) and receiving (Alice, 18, 0) — the input of the repository's
own test `sm_5_serial_number_already_seen_fails` — changes the state to the
single bill (Alice, 38, 0) instead of leaving it unchanged. -/
theorem C5_serial_reuse_code_bug :
    next_state aliceBank20 serialReuseTransfer =
      { bills := [{ owner := User.Alice, amount := 38, serial := 0 }], next_serial := 1 } ∧
    next_state aliceBank20 serialReuseTransfer ≠ aliceBank20 := by
  decide

/-- C8: under overflow-checked (debug build) semantics the transition is not
total: two spend amounts of u64::MAX - 1 overflow the `spends_sum`
accumulation and panic, modelled as `none`; under wrapping (release)
semantics the same input is merely rejected, returning the start state. -/
theorem C8_totality_code_bug :
    nextStateChecked Bank.new overflowTransfer = none ∧
    next_state Bank.new overflowTransfer = Bank.new := by
  decide

/-- C9: the result depends on the `HashSet` iteration order.  The two banks
hold the same two Alice bills (equal as sets, same counter), but the
transfer spending 3 deducts from bill serial 0 in one order and from bill
serial 1 in the other, producing set-different results. -/
theorem C9_order_dependence_code_bug :
    bankOrderA.bills.Perm bankOrderB.bills ∧
    bankOrderA.next_serial = bankOrderB.next_serial ∧
    ({ owner := User.Alice, amount := 2, serial := 0 } : Account) ∈
      (next_state bankOrderA drainTransfer).bills ∧
    ({ owner := User.Alice, amount := 2, serial := 0 } : Account) ∉
      (next_state bankOrderB drainTransfer).bills := by
  refine ⟨List.Perm.swap _ _ _, rfl, ?_, ?_⟩ <;> decide

end BFScratch
